import Mathlib

/-!
Verification of the incremental Telegram ingestion core
(`telegram_scrappers/`): a shallow embedding of `MongoDataManager`
(`data_manager.py`), `BasicTextChannelScraper.scrape`
(`channels/basic_text_channel.py`) and `TelegramScraperFactory`
(`scraper_factory.py`), with theorems settling the specification claims.

Modelling conventions:
* Python dict-shaped message records become the `Message` structure; a field
  that may be missing from the dict is an `Option`.
* The MongoDB collection backing `MongoDataManager` is a list of stored
  documents (insertion order).  The `connected` flag models
  `self.collection is None` (false means `connect` has not succeeded).
* Store-level write failures (the `except Exception` branches around
  `insert_one` and `insert_many`) are modelled by a predicate `insertFails`
  carried in the store state: inserting a document for which it holds raises.
* Wall-clock reads (`datetime.now()`) are modelled by an explicit `now`
  parameter; `inserted_at` / `processed_at` hold the instant supplied.
* Telethon `iter_messages` is the external source collaborator: a list of
  available raw messages in source recency order; `min_id` filters to ids
  strictly greater, `limit` truncates.
* Python object identity for factory-constructed scraper objects is modelled
  by a fresh `uid` drawn from a counter in the factory state.
* Exceptions that escape a method (`KeyError` in `get_scraper`, the
  `RuntimeError` in `scrape` when no client is set) are modelled by `Option`
  results (`none` = raised).
-/

/-- A raw Telegram message as yielded by `client.iter_messages`
(`nativeId`, produced-at date, text payload, media flag).  A message with no
text payload is modelled with `text = ""` (Python falsiness of
`message.text`). -/
structure RawMsg where
  id : Nat
  date : Nat
  text : String
  media : Bool
deriving DecidableEq

/-- The external Telegram client handle: the sequence of messages the source
exposes for the configured channel, in source recency order. -/
structure Client where
  items : List RawMsg
deriving DecidableEq

/-- A message record dict as handled by `MongoDataManager.save_message` and
produced by `BasicTextChannelScraper.process_message`.  `id` and `channel`
are `Option` because `save_message` reads them with `dict.get` (missing key
gives `None`). -/
structure Message where
  id : Option Nat
  date : Nat
  text : String
  channel : Option String
  hasMedia : Bool
  insertedAt : Option Nat
  processedAt : Option Nat
deriving DecidableEq

/-- The state of a `MongoDataManager`: whether `connect` has populated
`self.collection`, the stored documents, and the store-failure model for
document inserts. -/
structure MongoState where
  connected : Bool
  docs : List Message
  insertFails : Message → Bool

instance : Inhabited MongoState :=
  ⟨{ connected := false, docs := [], insertFails := fun _ => false }⟩

/-- Outcome of one `save_message` call.  The Python method returns a bool:
`Inserted` and `AlreadyExists` are the two distinct `return True` paths
(lines 125-128 and 116-119 of `data_manager.py`), `Failed` is `return False`
(not connected, or the insert raised). -/
inductive SaveOutcome where
  | Inserted
  | AlreadyExists
  | Failed
deriving DecidableEq

/-- The bool actually returned to the Python caller. -/
def SaveOutcome.toBool : SaveOutcome → Bool
  | .Inserted => true
  | .AlreadyExists => true
  | .Failed => false

/-- `message_data['inserted_at'] = datetime.now().isoformat()`
(data_manager.py line 122 and lines 157-159). -/
def setInsertedAt (now : Nat) (m : Message) : Message :=
  { m with insertedAt := some now }

/-- The channel part of the duplicate query in `save_message`: the channel is
added to the query only when `message_data.get('channel')` is truthy, i.e.
present and a nonempty string (data_manager.py lines 113-114). -/
def queryChannel (m : Message) : Option String :=
  match m.channel with
  | some c => if c = "" then none else some c
  | none => none

/-- The duplicate-existence query `find_one(query)` built by `save_message`
for a record with id `mid` (data_manager.py lines 111-116): a stored document
matches when its `id` equals `mid` and, if the channel was added to the
query, its `channel` equals it too. -/
def dupQuery (mid : Nat) (m : Message) (d : Message) : Bool :=
  d.id == some mid &&
    (match queryChannel m with
     | some c => d.channel == some c
     | none => true)

/-- `MongoDataManager.save_message` (data_manager.py lines 92-135).
Returns the new store state and the outcome (see `SaveOutcome`).  When the
record carries an id, a matching stored document short-circuits to
`AlreadyExists`; otherwise the record gets `inserted_at` stamped and is
appended (or the insert raises, caught as `return False`). -/
def save_message (st : MongoState) (now : Nat) (m : Message) :
    MongoState × SaveOutcome :=
  if st.connected = false then (st, .Failed)
  else
    let mi := setInsertedAt now m
    let insertPath : MongoState × SaveOutcome :=
      if st.insertFails mi then (st, .Failed)
      else ({ st with docs := st.docs ++ [mi] }, .Inserted)
    match m.id with
    | some mid =>
        if st.docs.any (dupQuery mid m) then (st, .AlreadyExists)
        else insertPath
    | none => insertPath

/-- `collection.insert_many(messages_data, ordered=False)` (data_manager.py
line 162): every document is attempted; the non-failing ones are appended;
the call reports the number inserted and whether it completed without
raising (with `ordered=False` the driver raises only after attempting all
operations). -/
def insertManyUnordered (st : MongoState) (ms : List Message) :
    MongoState × Nat × Bool :=
  let good := ms.filter (fun m => !st.insertFails m)
  ({ st with docs := st.docs ++ good }, good.length,
    ms.all (fun m => !st.insertFails m))

/-- One iteration of the fallback loop in `save_messages` (data_manager.py
lines 171-174): apply `save_message` and count the record when it returns
true. -/
def saveFallbackStep (now : Nat) (acc : MongoState × Nat) (m : Message) :
    MongoState × Nat :=
  let r := save_message acc.1 now m
  (r.1, acc.2 + (if r.2 = SaveOutcome.Failed then 0 else 1))

/-- `MongoDataManager.save_messages` (data_manager.py lines 137-175).
Returns the new store state and the number of messages reported saved: all
records get `inserted_at` stamped, then a single unordered bulk insert is
attempted (no duplicate check); only if it raises does the code fall back to
calling `save_message` on each record individually. -/
def save_messages (st : MongoState) (now : Nat) (ms : List Message) :
    MongoState × Nat :=
  if st.connected = false then (st, 0)
  else if ms.isEmpty then (st, 0)
  else
    let msT := ms.map (setInsertedAt now)
    let bulk := insertManyUnordered st msT
    if bulk.2.2 then (bulk.1, bulk.2.1)
    else msT.foldl (saveFallbackStep now) (bulk.1, 0)

/-- Maximum of a list of ids, `none` on the empty list. -/
def maxOfIds : List Nat → Option Nat
  | [] => none
  | n :: rest =>
    match maxOfIds rest with
    | none => some n
    | some w => some (max n w)

/-- The source-native ids of the documents stored for a given channel. -/
def channelIds (st : MongoState) (channel : String) : List Nat :=
  st.docs.filterMap (fun d => if d.channel = some channel then d.id else none)

/-- Modelled from the spec: `MongoDataManager.get_latest_message_id` is
called by `BasicTextChannelScraper.scrape` (basic_text_channel.py line 86)
but its definition is absent from the available sources.  Spec section 4.3:
the watermark read `get(channel)` must return the true maximum stored id for
the channel, computed from the persistence store, or absent when nothing is
stored for that channel. -/
def get_latest_message_id (st : MongoState) (channel : String) : Option Nat :=
  maxOfIds (channelIds st channel)

/-- `MongoDataManager.get_message_count` (data_manager.py lines 177-200):
count of stored documents, filtered by channel when a truthy channel name is
supplied; 0 when not connected. -/
def get_message_count (st : MongoState) (channel : Option String) : Nat :=
  if st.connected = false then 0
  else
    match channel with
    | some c =>
        if c = "" then st.docs.length
        else (st.docs.filter (fun d => d.channel == some c)).length
    | none => st.docs.length

/-- The state of one `BasicTextChannelScraper`
(basic_text_channel.py lines 13-34): channel coordinates, the configured
keyword and category options, the Telegram client handle once `connect` has
stored it, and the `MongoDataManager` (present iff `save_to_mongo`). -/
structure Scraper where
  channelId : String
  channelName : String
  keywords : List String
  categories : List String
  client : Option Client
  dm : Option MongoState

/-- `client.iter_messages(channel, **iter_kwargs)` as invoked by `scrape`
(basic_text_channel.py line 109): the incremental branch passes only
`min_id` (yield ids strictly greater), the initial branch passes only
`limit`. -/
def iter_messages (c : Client) (minId : Option Nat) (limit : Option Nat) :
    List RawMsg :=
  match minId with
  | some w => c.items.filter (fun r => decide (w < r.id))
  | none =>
    match limit with
    | some l => c.items.take l
    | none => c.items

/-- `BasicTextChannelScraper.process_message` (basic_text_channel.py lines
153-174): builds the record dict from the raw message; `channel` is the
configured channel name and `processed_at` the current instant. -/
def process_message (channelName : String) (now : Nat) (r : RawMsg) :
    Message :=
  { id := some r.id, date := r.date, text := r.text,
    channel := some channelName, hasMedia := r.media,
    insertedAt := none, processedAt := some now }

/-- The resume point read at the top of `scrape` (basic_text_channel.py
lines 81-92): the stored watermark when a data manager is present, else
`None`. -/
def resumePoint (scr : Scraper) : Option Nat :=
  match scr.dm with
  | some st => get_latest_message_id st scr.channelName
  | none => none

/-- The raw messages `scrape` iterates over (basic_text_channel.py lines
96-109): `is_incremental_scrape` is the Python truthiness of the resume
point (so a resume point of 0 counts as absent); the incremental branch
passes `min_id` and no limit, the initial branch passes the `limit`
argument. -/
def scrapeFetched (scr : Scraper) (limit : Option Nat) : List RawMsg :=
  match scr.client with
  | none => []
  | some c =>
    match resumePoint scr with
    | some n =>
        if n ≠ 0 then iter_messages c (some n) none
        else iter_messages c none limit
    | none => iter_messages c none limit

/-- One iteration of the message loop in `scrape` (basic_text_channel.py
lines 109-130): messages without text are skipped; otherwise the processed
record (always a nonempty dict, hence truthy) is appended to the results and
immediately saved when a data manager is present. -/
def scrapeStep (channelName : String) (now : Nat)
    (acc : Option MongoState × List Message) (r : RawMsg) :
    Option MongoState × List Message :=
  if r.text = "" then acc
  else
    let p := process_message channelName now r
    let msgs := acc.2 ++ [p]
    match acc.1 with
    | some st => (some (save_message st now p).1, msgs)
    | none => (none, msgs)

/-- The body of `scrape` after the client check: fetch, then process and
persist each message.  The trailing `get_message_count` diagnostic read is
omitted (it prints a count and does not change state). -/
def scrapeRun (scr : Scraper) (now : Nat) (limit : Option Nat) :
    Scraper × List Message :=
  let fetched := scrapeFetched scr limit
  let res := fetched.foldl (scrapeStep scr.channelName now) (scr.dm, [])
  ({ scr with dm := res.1 }, res.2)

/-- `BasicTextChannelScraper.scrape` (basic_text_channel.py lines 64-151):
raises `RuntimeError` (modelled as `none`) when no client is connected,
otherwise runs the fetch-process-persist loop. -/
def scrape (scr : Scraper) (now : Nat) (limit : Option Nat) :
    Option (Scraper × List Message) :=
  match scr.client with
  | none => none
  | some _ => some (scrapeRun scr now limit)

/-- A registered scraper class (an entry of
`TelegramScraperFactory._scrapers`).  Only the identity of the class matters
to the factory, so it is modelled by its name. -/
structure ScraperType where
  name : String
deriving DecidableEq

/-- A constructed scraper object as cached in
`TelegramScraperFactory._instances`: the class it was built from, the
constructor arguments, and a `uid` modelling Python object identity (each
construction yields a fresh one). -/
structure ScraperObj where
  cls : ScraperType
  channelId : String
  channelName : String
  config : List (String × String)
  uid : Nat
deriving DecidableEq

/-- The `**kwargs` passed to `get_scraper`: the two keys the factory pops
(`channel_id`, `channel_name`) and the remaining option entries. -/
structure KwArgs where
  channel_id : Option String
  channel_name : Option String
  others : List (String × String)
deriving DecidableEq

/-- Python truthiness of the kwargs dict (`or kwargs`, scraper_factory.py
line 51, checked before anything is popped): nonempty. -/
def KwArgs.truthy (kw : KwArgs) : Bool :=
  kw.channel_id.isSome || kw.channel_name.isSome || !kw.others.isEmpty

/-- Empty kwargs: a call such as `get_scraper(t)` with no options. -/
def emptyKw : KwArgs := { channel_id := none, channel_name := none, others := [] }

/-- Kwargs supplying only `channel_name`. -/
def kwName (x : String) : KwArgs :=
  { channel_id := none, channel_name := some x, others := [] }

/-- Lookup in a Python-dict-like association list (first binding wins). -/
def lookupAL {α : Type} (k : String) : List (String × α) → Option α
  | [] => none
  | (k2, v) :: rest => if k2 = k then some v else lookupAL k rest

/-- Dict assignment `d[k] = v`: replace the binding in place, else append. -/
def insertAL {α : Type} (k : String) (v : α) :
    List (String × α) → List (String × α)
  | [] => [(k, v)]
  | (k2, v2) :: rest =>
      if k2 = k then (k, v) :: rest else (k2, v2) :: insertAL k v rest

/-- Dict deletion `del d[k]`: drop every binding for the key. -/
def eraseAL {α : Type} (k : String) (l : List (String × α)) :
    List (String × α) :=
  l.filter (fun p => decide (p.1 ≠ k))

/-- The class-level state of `TelegramScraperFactory` (scraper_factory.py
lines 15-16): the registration dict `_scrapers`, the cache dict
`_instances`, and the identity counter for constructed objects. -/
structure FactoryState where
  scrapers : List (String × ScraperType)
  instances : List (String × ScraperObj)
  counter : Nat
deriving DecidableEq

/-- `TelegramScraperFactory.register_scraper` (scraper_factory.py lines
18-30); the `issubclass` guard always passes here because every
`ScraperType` models a `BaseTelegramScraper` subclass. -/
def register_scraper (st : FactoryState) (name : String) (ty : ScraperType) :
    FactoryState :=
  { st with scrapers := insertAL name ty st.scrapers }

/-- `TelegramScraperFactory.get_scraper` (scraper_factory.py lines 32-62).
`none` models the `KeyError` for an unregistered scraper type.  A new object
is constructed when no instance is cached under the type or when any kwargs
were supplied; `channel_id` and `channel_name` default to the scraper type
string. -/
def get_scraper (st : FactoryState) (t : String) (kw : KwArgs) :
    Option (FactoryState × ScraperObj) :=
  match lookupAL t st.scrapers with
  | none => none
  | some ty =>
    let construct : FactoryState × ScraperObj :=
      let obj : ScraperObj :=
        { cls := ty, channelId := kw.channel_id.getD t,
          channelName := kw.channel_name.getD t,
          config := kw.others, uid := st.counter }
      ({ st with instances := insertAL t obj st.instances,
                 counter := st.counter + 1 }, obj)
    match lookupAL t st.instances with
    | some cached => if kw.truthy then some construct else some (st, cached)
    | none => some construct

/-- `TelegramScraperFactory.get_all_scrapers` (scraper_factory.py lines
64-72): the cached instances. -/
def get_all_scrapers (st : FactoryState) : List ScraperObj :=
  st.instances.map Prod.snd

/-- `TelegramScraperFactory.remove_scraper` (scraper_factory.py lines
84-101): delete the cached instance if present, then delete the type
registration if present (returning true), else return false. -/
def remove_scraper (st : FactoryState) (name : String) :
    FactoryState × Bool :=
  let st1 :=
    if (lookupAL name st.instances).isSome
    then { st with instances := eraseAL name st.instances }
    else st
  if (lookupAL name st1.scrapers).isSome then
    ({ st1 with scrapers := eraseAL name st1.scrapers }, true)
  else (st1, false)

/-! ### Association-list (Python dict) lemmas -/

theorem lookupAL_insertAL_self {α : Type} (k : String) (v : α)
    (l : List (String × α)) : lookupAL k (insertAL k v l) = some v := by
  induction l with
  | nil => simp [insertAL, lookupAL]
  | cons p rest ih =>
    obtain ⟨k2, v2⟩ := p
    by_cases h : k2 = k
    · simp [insertAL, lookupAL, h]
    · simp [insertAL, lookupAL, h, ih]

theorem lookupAL_insertAL_ne {α : Type} {k k2 : String} (v : α)
    (l : List (String × α)) (h : k2 ≠ k) :
    lookupAL k2 (insertAL k v l) = lookupAL k2 l := by
  induction l with
  | nil => simp [insertAL, lookupAL, Ne.symm h]
  | cons p rest ih =>
    obtain ⟨k3, v3⟩ := p
    by_cases h3 : k3 = k
    · simp [insertAL, lookupAL, h3, Ne.symm h]
    · simp [insertAL, lookupAL, h3, ih]

theorem lookupAL_eraseAL_self {α : Type} (k : String)
    (l : List (String × α)) : lookupAL k (eraseAL k l) = none := by
  induction l with
  | nil => rfl
  | cons p rest ih =>
    obtain ⟨k2, v2⟩ := p
    by_cases h : k2 = k
    · simpa [eraseAL, List.filter_cons, h] using ih
    · simpa [eraseAL, List.filter_cons, h, lookupAL] using ih

theorem lookupAL_eraseAL_ne {α : Type} {k k2 : String}
    (l : List (String × α)) (h : k2 ≠ k) :
    lookupAL k2 (eraseAL k l) = lookupAL k2 l := by
  induction l with
  | nil => rfl
  | cons p rest ih =>
    obtain ⟨k3, v3⟩ := p
    simp only [eraseAL, List.filter_cons, decide_not] at ih ⊢
    by_cases h3 : k3 = k
    · subst h3
      have h32 : ¬ k3 = k2 := Ne.symm h
      simp [lookupAL, h32, ih]
    · by_cases h32 : k3 = k2
      · subst h32
        simp [lookupAL, h3, ih]
      · simp [lookupAL, h3, h32, ih]

theorem mem_fst_insertAL {α : Type} {k a : String} {v : α}
    {l : List (String × α)} (h : a ∈ (insertAL k v l).map Prod.fst) :
    a = k ∨ a ∈ l.map Prod.fst := by
  induction l with
  | nil => simpa [insertAL] using h
  | cons p rest ih =>
    obtain ⟨k2, v2⟩ := p
    by_cases hk : k2 = k
    · simp [insertAL, hk] at h
      rcases h with h | h
      · exact Or.inl h
      · exact Or.inr (by simpa using Or.inr h)
    · simp [insertAL, hk] at h
      rcases h with h | h
      · exact Or.inr (by simp [h])
      · rcases ih (by simpa using h) with h2 | h2
        · exact Or.inl h2
        · exact Or.inr (by simpa using Or.inr h2)

theorem keys_nodup_insertAL {α : Type} (k : String) (v : α) :
    ∀ {l : List (String × α)}, (l.map Prod.fst).Nodup →
      ((insertAL k v l).map Prod.fst).Nodup := by
  intro l
  induction l with
  | nil => intro _; simp [insertAL]
  | cons p rest ih =>
    intro h
    obtain ⟨k2, v2⟩ := p
    simp only [List.map_cons, List.nodup_cons] at h
    by_cases hk : k2 = k
    · subst hk
      have he : insertAL k2 v ((k2, v2) :: rest) = (k2, v) :: rest := by
        simp [insertAL]
      rw [he]
      simp only [List.map_cons, List.nodup_cons]
      exact ⟨h.1, h.2⟩
    · have he : insertAL k v ((k2, v2) :: rest)
          = (k2, v2) :: insertAL k v rest := by
        simp [insertAL, hk]
      rw [he]
      simp only [List.map_cons, List.nodup_cons]
      refine ⟨?_, ih h.2⟩
      intro hmem
      rcases mem_fst_insertAL hmem with h2 | h2
      · exact hk h2
      · exact h.1 h2

theorem filter_key_eq_nil {α : Type} {k : String} {l : List (String × α)}
    (h : k ∉ l.map Prod.fst) :
    l.filter (fun p => decide (p.1 = k)) = [] := by
  rw [List.filter_eq_nil_iff]
  intro p hp
  simp only [decide_eq_true_eq]
  intro hpk
  exact h (by rw [← hpk]; exact List.mem_map_of_mem Prod.fst hp)

theorem filter_insertAL {α : Type} (k : String) (v : α)
    {l : List (String × α)} (h : (l.map Prod.fst).Nodup) :
    (insertAL k v l).filter (fun p => decide (p.1 = k)) = [(k, v)] := by
  induction l with
  | nil => simp [insertAL]
  | cons p rest ih =>
    obtain ⟨k2, v2⟩ := p
    simp only [List.map_cons, List.nodup_cons] at h
    by_cases hk : k2 = k
    · have hnot : k ∉ rest.map Prod.fst := by rw [← hk]; exact h.1
      simp [insertAL, hk, List.filter_cons, filter_key_eq_nil hnot]
    · simp [insertAL, hk, List.filter_cons, ih h.2]

/-! ### Watermark (max stored id) lemmas -/

theorem maxOfIds_eq_none {l : List Nat} : maxOfIds l = none ↔ l = [] := by
  cases l with
  | nil => simp [maxOfIds]
  | cons n rest =>
    simp only [maxOfIds]
    cases maxOfIds rest <;> simp

theorem maxOfIds_spec {l : List Nat} {w : Nat} (h : maxOfIds l = some w) :
    w ∈ l ∧ ∀ n ∈ l, n ≤ w := by
  induction l generalizing w with
  | nil => simp [maxOfIds] at h
  | cons n rest ih =>
    simp only [maxOfIds] at h
    cases h2 : maxOfIds rest with
    | none =>
      rw [h2] at h
      have : rest = [] := maxOfIds_eq_none.mp h2
      subst this
      simp at h
      subst h
      simp
    | some w2 =>
      rw [h2] at h
      simp at h
      obtain ⟨hmem, hle⟩ := ih h2
      constructor
      · rcases Nat.le_total n w2 with hn | hn
        · rw [← h]; simp [Nat.max_eq_right hn, hmem]
        · rw [← h]; simp [Nat.max_eq_left hn]
      · intro a ha
        rcases List.mem_cons.mp ha with ha | ha
        · subst ha; rw [← h]; exact Nat.le_max_left _ _
        · rw [← h]; exact Nat.le_trans (hle a ha) (Nat.le_max_right _ _)

theorem maxOfIds_ge {l : List Nat} {n : Nat} (h : n ∈ l) :
    ∃ w, maxOfIds l = some w ∧ n ≤ w := by
  induction l with
  | nil => simp at h
  | cons m rest ih =>
    simp only [maxOfIds]
    cases h2 : maxOfIds rest with
    | none =>
      have : rest = [] := maxOfIds_eq_none.mp h2
      subst this
      simp at h
      subst h
      exact ⟨_, rfl, Nat.le_refl _⟩
    | some w2 =>
      rcases List.mem_cons.mp h with h | h
      · subst h; exact ⟨max n w2, rfl, Nat.le_max_left _ _⟩
      · obtain ⟨w, hw, hle⟩ := ih h
        rw [h2] at hw
        simp at hw
        subst hw
        exact ⟨max m w2, rfl, Nat.le_trans hle (Nat.le_max_right _ _)⟩

theorem mem_channelIds {st : MongoState} {C : String} {n : Nat} :
    n ∈ channelIds st C ↔
      ∃ d ∈ st.docs, d.channel = some C ∧ d.id = some n := by
  simp only [channelIds, List.mem_filterMap]
  constructor
  · rintro ⟨d, hd, hf⟩
    by_cases h : d.channel = some C
    · simp only [h, if_pos] at hf
      exact ⟨d, hd, h, hf⟩
    · simp [h] at hf
  · rintro ⟨d, hd, hc, hi⟩
    exact ⟨d, hd, by simp [hc, hi]⟩

/-! ### save_message shape lemmas -/

theorem save_message_cases (st : MongoState) (now : Nat) (m : Message) :
    ((save_message st now m).1 = st ∧
      (save_message st now m).2 ≠ SaveOutcome.Inserted) ∨
    ((save_message st now m).1
        = { st with docs := st.docs ++ [setInsertedAt now m] } ∧
      (save_message st now m).2 = SaveOutcome.Inserted) := by
  unfold save_message
  split
  · exact Or.inl ⟨rfl, by simp⟩
  · dsimp only
    split
    · split
      · exact Or.inl ⟨rfl, by simp⟩
      · split
        · exact Or.inl ⟨rfl, by simp⟩
        · exact Or.inr ⟨rfl, rfl⟩
    · split
      · exact Or.inl ⟨rfl, by simp⟩
      · exact Or.inr ⟨rfl, rfl⟩

theorem save_message_connected (st : MongoState) (now : Nat) (m : Message) :
    (save_message st now m).1.connected = st.connected := by
  rcases save_message_cases st now m with ⟨h, _⟩ | ⟨h, _⟩ <;> rw [h]

theorem save_message_insertFails (st : MongoState) (now : Nat) (m : Message) :
    (save_message st now m).1.insertFails = st.insertFails := by
  rcases save_message_cases st now m with ⟨h, _⟩ | ⟨h, _⟩ <;> rw [h]

theorem save_message_already {st : MongoState} {now : Nat} {m : Message}
    (h : (save_message st now m).2 = SaveOutcome.AlreadyExists) :
    (save_message st now m).1 = st ∧
    ∃ mid, m.id = some mid ∧ ∃ d ∈ st.docs, dupQuery mid m d = true := by
  constructor
  · rcases save_message_cases st now m with ⟨h1, _⟩ | ⟨_, h2⟩
    · exact h1
    · rw [h] at h2
      simp at h2
  · unfold save_message at h
    split at h
    · simp at h
    · dsimp only at h
      split at h
      next mid hmid =>
        split at h
        next hany =>
          obtain ⟨d, hd, hq⟩ := List.any_eq_true.mp hany
          exact ⟨mid, hmid, d, hd, hq⟩
        next hany => split at h <;> simp at h
      next hmid => split at h <;> simp at h

theorem queryChannel_eq_some {m : Message} {c : String}
    (h : queryChannel m = some c) : m.channel = some c := by
  unfold queryChannel at h
  cases hc : m.channel with
  | none => rw [hc] at h; simp at h
  | some c2 =>
    rw [hc] at h
    by_cases he : c2 = ""
    · simp [he] at h
    · simp [he] at h
      rw [h]

theorem dupQuery_setInsertedAt_self (now : Nat) {m : Message} {n : Nat}
    (h : m.id = some n) : dupQuery n m (setInsertedAt now m) = true := by
  simp only [dupQuery, setInsertedAt]
  cases hq : queryChannel m with
  | none => simp [h]
  | some c => simp [h, queryChannel_eq_some hq]

theorem dupQuery_destruct {N : Nat} {m d : Message} {C : String}
    (hch : m.channel = some C) (hC : C ≠ "") (h : dupQuery N m d = true) :
    d.id = some N ∧ d.channel = some C := by
  have hq : queryChannel m = some C := by simp [queryChannel, hch, hC]
  simpa [dupQuery, hq] using h

/-! ### Claims about the persistence layer -/

/-- C2: for a record carrying an id and not yet present in the store, two
successive `save_message` calls take the Inserted path then the
AlreadyExists path, the second call leaves the store untouched, and exactly
one stored document matches the record duplicate query afterwards. -/
theorem claim2_idempotent_upsert (st : MongoState) (now : Nat) (m : Message)
    (n : Nat) (hcon : st.connected = true) (hid : m.id = some n)
    (hnew : st.docs.any (dupQuery n m) = false)
    (hok : st.insertFails (setInsertedAt now m) = false) :
    (save_message st now m).2 = SaveOutcome.Inserted ∧
    (save_message st now m).1.docs = st.docs ++ [setInsertedAt now m] ∧
    save_message (save_message st now m).1 now m
      = ((save_message st now m).1, SaveOutcome.AlreadyExists) ∧
    (save_message st now m).1.docs.countP (dupQuery n m) = 1 := by
  have h1 : save_message st now m
      = ({ st with docs := st.docs ++ [setInsertedAt now m] },
          SaveOutcome.Inserted) := by
    simp [save_message, hcon, hid, hnew, hok]
  have hself := dupQuery_setInsertedAt_self now hid
  refine ⟨by rw [h1], by rw [h1], ?_, ?_⟩
  · rw [h1]
    have hany : (st.docs ++ [setInsertedAt now m]).any (dupQuery n m)
        = true := by
      simp [List.any_append, hself]
    simp [save_message, hcon, hid, hany]
  · rw [h1]
    simp only [List.countP_append]
    rw [List.countP_eq_zero.mpr ?zero]
    · simp [List.countP_cons, hself]
    · intro a ha
      simpa using List.any_eq_false.mp hnew a ha

/-- C8: every store operation invoked before `connect` has populated the
collection returns the failure outcome (`False` for `save_message`, `0` for
`save_messages`), which is distinct from both success outcomes, and leaves
the stored state untouched. -/
theorem claim8_store_unavailable (st : MongoState) (now : Nat) (m : Message)
    (ms : List Message) (h : st.connected = false) :
    save_message st now m = (st, SaveOutcome.Failed) ∧
    SaveOutcome.Failed.toBool = false ∧
    SaveOutcome.Inserted.toBool = true ∧
    SaveOutcome.AlreadyExists.toBool = true ∧
    save_messages st now ms = (st, 0) := by
  refine ⟨?_, rfl, rfl, rfl, ?_⟩
  · simp [save_message, h]
  · simp [save_messages, h]

/-- C10: a record without an id skips the duplicate-existence check and is
unconditionally inserted, so saving the same id-less record twice stores two
copies (both calls take the Inserted path). -/
theorem claim10_no_id_unconditional_insert (st : MongoState) (now : Nat)
    (m : Message) (hcon : st.connected = true) (hid : m.id = none)
    (hok : st.insertFails (setInsertedAt now m) = false) :
    save_message st now m
      = ({ st with docs := st.docs ++ [setInsertedAt now m] },
          SaveOutcome.Inserted) ∧
    save_message (save_message st now m).1 now m
      = ({ st with
            docs := st.docs ++ [setInsertedAt now m, setInsertedAt now m] },
          SaveOutcome.Inserted) := by
  have h1 : save_message st now m
      = ({ st with docs := st.docs ++ [setInsertedAt now m] },
          SaveOutcome.Inserted) := by
    simp [save_message, hcon, hid, hok]
  refine ⟨h1, ?_⟩
  rw [h1]
  simp [save_message, hcon, hid, hok]

/-! ### Fold lemmas for the batch and scrape loops -/

theorem saveFallback_docs (now : Nat) :
    ∀ (ms : List Message) (st : MongoState) (cnt : Nat),
      ∃ ext, (ms.foldl (saveFallbackStep now) (st, cnt)).1.docs
        = st.docs ++ ext := by
  intro ms
  induction ms with
  | nil => intro st cnt; exact ⟨[], by simp⟩
  | cons m rest ih =>
    intro st cnt
    simp only [List.foldl_cons]
    have hstep : saveFallbackStep now (st, cnt) m
        = ((save_message st now m).1,
            cnt + (if (save_message st now m).2 = SaveOutcome.Failed
                   then 0 else 1)) := rfl
    rw [hstep]
    obtain ⟨ext2, h2⟩ := ih (save_message st now m).1 _
    rcases save_message_cases st now m with ⟨h1, _⟩ | ⟨h1, _⟩
    · exact ⟨ext2, by rw [h2, h1]⟩
    · exact ⟨setInsertedAt now m :: ext2, by rw [h2, h1]; simp⟩

theorem scrapeLoop_docs (ch : String) (now : Nat) :
    ∀ (rs : List RawMsg) (st : MongoState) (msgs : List Message),
      ∃ st2 ext,
        (rs.foldl (scrapeStep ch now) (some st, msgs)).1 = some st2 ∧
        st2.docs = st.docs ++ ext ∧
        (∀ d ∈ ext, ∃ r, r ∈ rs ∧ d.id = some r.id) := by
  intro rs
  induction rs with
  | nil =>
    intro st msgs
    exact ⟨st, [], rfl, by simp, by simp⟩
  | cons r rest ih =>
    intro st msgs
    simp only [List.foldl_cons]
    by_cases ht : r.text = ""
    · have hstep : scrapeStep ch now (some st, msgs) r = (some st, msgs) := by
        simp [scrapeStep, ht]
      rw [hstep]
      obtain ⟨st2, ext, h1, h2, h3⟩ := ih st msgs
      refine ⟨st2, ext, h1, h2, ?_⟩
      intro d hd
      obtain ⟨r2, hr2, hid⟩ := h3 d hd
      exact ⟨r2, List.mem_cons_of_mem _ hr2, hid⟩
    · have hstep : scrapeStep ch now (some st, msgs) r
          = (some (save_message st now (process_message ch now r)).1,
              msgs ++ [process_message ch now r]) := by
        simp [scrapeStep, ht]
      rw [hstep]
      obtain ⟨st2, ext, h1, h2, h3⟩ :=
        ih (save_message st now (process_message ch now r)).1
          (msgs ++ [process_message ch now r])
      rcases save_message_cases st now (process_message ch now r)
        with ⟨hs, _⟩ | ⟨hs, _⟩
      · refine ⟨st2, ext, h1, by rw [h2, hs], ?_⟩
        intro d hd
        obtain ⟨r2, hr2, hid⟩ := h3 d hd
        exact ⟨r2, List.mem_cons_of_mem _ hr2, hid⟩
      · refine ⟨st2, setInsertedAt now (process_message ch now r) :: ext,
          h1, by rw [h2, hs]; simp, ?_⟩
        intro d hd
        rcases List.mem_cons.mp hd with hd | hd
        · subst hd
          exact ⟨r, List.mem_cons_self r rest, rfl⟩
        · obtain ⟨r2, hr2, hid⟩ := h3 d hd
          exact ⟨r2, List.mem_cons_of_mem _ hr2, hid⟩

/-! ### Claims about batch persistence -/

/-- C6 counterexample: `save_messages` does not apply the single-record
upsert to each record.  With a store already holding the record with id 1
for channel c, `save_messages` bulk-inserts a second copy (store length 2,
reported count 1) whereas `save_message` on the same record reports
AlreadyExists and stores nothing. -/
theorem claim6_cex :
    (save_messages
        { connected := true,
          docs := [{ id := some 1, date := 0, text := "t",
                     channel := some "c", hasMedia := false,
                     insertedAt := some 0, processedAt := none }],
          insertFails := fun _ => false } 0
        [{ id := some 1, date := 0, text := "t", channel := some "c",
           hasMedia := false, insertedAt := none, processedAt := none }]).2
      = 1 ∧
    (save_messages
        { connected := true,
          docs := [{ id := some 1, date := 0, text := "t",
                     channel := some "c", hasMedia := false,
                     insertedAt := some 0, processedAt := none }],
          insertFails := fun _ => false } 0
        [{ id := some 1, date := 0, text := "t", channel := some "c",
           hasMedia := false, insertedAt := none, processedAt := none }]).1.docs.length
      = 2 ∧
    (save_message
        { connected := true,
          docs := [{ id := some 1, date := 0, text := "t",
                     channel := some "c", hasMedia := false,
                     insertedAt := some 0, processedAt := none }],
          insertFails := fun _ => false } 0
        { id := some 1, date := 0, text := "t", channel := some "c",
          hasMedia := false, insertedAt := none, processedAt := none }).2
      = SaveOutcome.AlreadyExists ∧
    (save_message
        { connected := true,
          docs := [{ id := some 1, date := 0, text := "t",
                     channel := some "c", hasMedia := false,
                     insertedAt := some 0, processedAt := none }],
          insertFails := fun _ => false } 0
        { id := some 1, date := 0, text := "t", channel := some "c",
          hasMedia := false, insertedAt := none, processedAt := none }).1.docs.length
      = 1 := by
  refine ⟨?_, ?_, ?_, ?_⟩ <;> rfl

/-- C6 amended: `save_messages` first attempts one unordered bulk insert
with no duplicate check and, only if it raises, falls back to per-record
`save_message` calls; in either path a record the store rejects does not
prevent the others from being attempted: the stored documents are only
extended, and every batch record the store accepts ends up represented in
the store (a document with its id is present afterwards). -/
theorem claim6_amended (st : MongoState) (now : Nat) (ms : List Message)
    (m : Message) (k : Nat) (hcon : st.connected = true) (hm : m ∈ ms)
    (hok : st.insertFails (setInsertedAt now m) = false)
    (hid : m.id = some k) :
    (∃ ext, (save_messages st now ms).1.docs = st.docs ++ ext) ∧
    ∃ d ∈ (save_messages st now ms).1.docs, d.id = some k := by
  have hne : ms.isEmpty = false := by
    cases ms with
    | nil => simp at hm
    | cons a l => rfl
  have hmT : setInsertedAt now m ∈ ms.map (setInsertedAt now) :=
    List.mem_map_of_mem _ hm
  have hgood : setInsertedAt now m
      ∈ (ms.map (setInsertedAt now)).filter (fun x => !st.insertFails x) :=
    List.mem_filter.mpr ⟨hmT, by simp [hok]⟩
  have hmain : save_messages st now ms
      = (if (insertManyUnordered st (ms.map (setInsertedAt now))).2.2 then
          ((insertManyUnordered st (ms.map (setInsertedAt now))).1,
            (insertManyUnordered st (ms.map (setInsertedAt now))).2.1)
         else (ms.map (setInsertedAt now)).foldl (saveFallbackStep now)
          ((insertManyUnordered st (ms.map (setInsertedAt now))).1, 0)) := by
    simp [save_messages, hcon, hne]
  by_cases hb : (insertManyUnordered st (ms.map (setInsertedAt now))).2.2 = true
  · rw [hmain, if_pos hb]
    refine ⟨⟨(ms.map (setInsertedAt now)).filter (fun x => !st.insertFails x),
        rfl⟩, ?_⟩
    refine ⟨setInsertedAt now m, ?_, by simp [setInsertedAt, hid]⟩
    simp only [insertManyUnordered]
    exact List.mem_append.mpr (Or.inr hgood)
  · rw [hmain, if_neg hb]
    obtain ⟨ext2, hext2⟩ := saveFallback_docs now (ms.map (setInsertedAt now))
      (insertManyUnordered st (ms.map (setInsertedAt now))).1 0
    have hbulkdocs : (insertManyUnordered st (ms.map (setInsertedAt now))).1.docs
        = st.docs ++ (ms.map (setInsertedAt now)).filter
            (fun x => !st.insertFails x) := rfl
    constructor
    · exact ⟨(ms.map (setInsertedAt now)).filter (fun x => !st.insertFails x)
        ++ ext2, by rw [hext2, hbulkdocs, List.append_assoc]⟩
    · refine ⟨setInsertedAt now m, ?_, by simp [setInsertedAt, hid]⟩
      rw [hext2, hbulkdocs]
      exact List.mem_append.mpr (Or.inl (List.mem_append.mpr (Or.inr hgood)))

/-! ### Claims about the watermark and the resume protocol -/

/-- C3 counterexample: with a store holding a document with id 5 under
channel x, saving a record with id 5 whose channel field is the empty string
succeeds (the duplicate query drops the falsy channel and matches the other
channel x document), stores nothing, and a watermark read for the empty
channel returns `none`, not a value greater or equal 5. -/
theorem claim3_cex :
    (save_message
        { connected := true,
          docs := [{ id := some 5, date := 0, text := "t",
                     channel := some "x", hasMedia := false,
                     insertedAt := some 0, processedAt := none }],
          insertFails := fun _ => false } 0
        { id := some 5, date := 0, text := "t", channel := some "",
          hasMedia := false, insertedAt := none, processedAt := none }).2
      = SaveOutcome.AlreadyExists ∧
    (save_message
        { connected := true,
          docs := [{ id := some 5, date := 0, text := "t",
                     channel := some "x", hasMedia := false,
                     insertedAt := some 0, processedAt := none }],
          insertFails := fun _ => false } 0
        { id := some 5, date := 0, text := "t", channel := some "",
          hasMedia := false, insertedAt := none, processedAt := none }).1.docs
      = [{ id := some 5, date := 0, text := "t", channel := some "x",
           hasMedia := false, insertedAt := some 0, processedAt := none }] ∧
    get_latest_message_id
      (save_message
        { connected := true,
          docs := [{ id := some 5, date := 0, text := "t",
                     channel := some "x", hasMedia := false,
                     insertedAt := some 0, processedAt := none }],
          insertFails := fun _ => false } 0
        { id := some 5, date := 0, text := "t", channel := some "",
          hasMedia := false, insertedAt := none, processedAt := none }).1 ""
      = none := by
  exact ⟨by decide, by decide, by decide⟩

/-- C3 amended: for a channel with a nonempty name, after `save_message`
reports success for a record with id N and that channel, the watermark read
returns a value greater or equal N; and in general the watermark read
returns an id stored for the channel that bounds all ids stored for the
channel, or `none` exactly when no stored document of the channel carries an
id. -/
theorem claim3_amended (st : MongoState) (now N : Nat) (m : Message)
    (C : String) (hC : C ≠ "") (hch : m.channel = some C)
    (hid : m.id = some N)
    (ho : (save_message st now m).2 ≠ SaveOutcome.Failed) :
    (∃ w, get_latest_message_id (save_message st now m).1 C = some w ∧
      N ≤ w) ∧
    (∀ w, get_latest_message_id st C = some w →
      (∃ d ∈ st.docs, d.channel = some C ∧ d.id = some w) ∧
      ∀ d ∈ st.docs, d.channel = some C → ∀ n2, d.id = some n2 → n2 ≤ w) ∧
    (get_latest_message_id st C = none →
      ∀ d ∈ st.docs, d.channel = some C → d.id = none) := by
  refine ⟨?_, ?_, ?_⟩
  · cases hout : (save_message st now m).2 with
    | Failed => exact absurd hout ho
    | Inserted =>
      rcases save_message_cases st now m with ⟨_, hne⟩ | ⟨hst, _⟩
      · exact absurd hout hne
      · have hmem : N ∈ channelIds (save_message st now m).1 C := by
          rw [hst]
          exact mem_channelIds.mpr
            ⟨setInsertedAt now m, by simp,
              by simp [setInsertedAt, hch], by simp [setInsertedAt, hid]⟩
        exact maxOfIds_ge hmem
    | AlreadyExists =>
      obtain ⟨hst, mid, hmid, d, hd, hq⟩ := save_message_already hout
      have hmidN : mid = N := by
        rw [hmid] at hid
        exact Option.some.inj hid
      subst hmidN
      obtain ⟨hdid, hdch⟩ := dupQuery_destruct hch hC hq
      have hmem : mid ∈ channelIds (save_message st now m).1 C := by
        rw [hst]
        exact mem_channelIds.mpr ⟨d, hd, hdch, hdid⟩
      exact maxOfIds_ge hmem
  · intro w hw
    have hspec := maxOfIds_spec
      (show maxOfIds (channelIds st C) = some w from hw)
    refine ⟨mem_channelIds.mp hspec.1, ?_⟩
    intro d hd hdch n2 hdid
    exact hspec.2 n2 (mem_channelIds.mpr ⟨d, hd, hdch, hdid⟩)
  · intro hnone d hd hdch
    have hempty : channelIds st C = [] := maxOfIds_eq_none.mp hnone
    cases hdid : d.id with
    | none => rfl
    | some n2 =>
      have : n2 ∈ channelIds st C :=
        mem_channelIds.mpr ⟨d, hd, hdch, hdid⟩
      rw [hempty] at this
      simp at this

/-- A document with source id 0 stored for channel C: the result of a
previously completed run over a source whose only item has native id 0. -/
def docZero : Message :=
  { id := some 0, date := 0, text := "a", channel := some "C",
    hasMedia := false, insertedAt := some 0, processedAt := some 0 }

/-- The store after that previous run. -/
def dmZero : MongoState :=
  { connected := true, docs := [docZero], insertFails := fun _ => false }

/-- The single raw source item, native id 0. -/
def rawZero : RawMsg := { id := 0, date := 0, text := "a", media := false }

/-- The scraper re-invoked for channel C against that source and store. -/
def scrZero : Scraper :=
  { channelId := "c", channelName := "C", keywords := [], categories := [],
    client := some { items := [rawZero] }, dm := some dmZero }

/-- C1 counterexample: for a channel whose last persisted item has id 0, a
re-run does not restrict itself to newer items: the stored watermark is 0,
yet the run fetches the already stored item with id 0 again (the Python
truthiness test on the watermark treats 0 as absent and falls back to a
fresh limited scrape). -/
theorem claim1_cex :
    get_latest_message_id dmZero "C" = some 0 ∧
    docZero ∈ dmZero.docs ∧
    docZero.id = some rawZero.id ∧
    scrapeFetched scrZero (some 100) = [rawZero] := by
  exact ⟨by decide, by decide, by decide, by decide⟩

/-- C1 amended: re-invoking `scrape` for a channel whose last persisted id
is nonzero fetches exactly the source items with id strictly greater than
that id, never re-fetches a stored item of the channel, and extends the
store only with documents whose id is strictly greater than that id. -/
theorem claim1_amended (scr : Scraper) (c : Client) (dmSt : MongoState)
    (w now : Nat) (limit : Option Nat) (r : RawMsg) (d : Message)
    (hc : scr.client = some c) (hdm : scr.dm = some dmSt)
    (hw : get_latest_message_id dmSt scr.channelName = some w)
    (hw0 : w ≠ 0)
    (hr : r ∈ scrapeFetched scr limit)
    (hd : d ∈ dmSt.docs) (hdc : d.channel = some scr.channelName) :
    scrapeFetched scr limit = c.items.filter (fun x => decide (w < x.id)) ∧
    w < r.id ∧
    d.id ≠ some r.id ∧
    ∃ dmSt2 ext, (scrapeRun scr now limit).1.dm = some dmSt2 ∧
      dmSt2.docs = dmSt.docs ++ ext ∧
      ∀ e ∈ ext, ∃ n2, e.id = some n2 ∧ w < n2 := by
  have hres : resumePoint scr = some w := by simp [resumePoint, hdm, hw]
  have hfetch : scrapeFetched scr limit
      = c.items.filter (fun x => decide (w < x.id)) := by
    simp [scrapeFetched, hc, hres, hw0, iter_messages]
  have hrlt : w < r.id := by
    rw [hfetch] at hr
    simpa using (List.mem_filter.mp hr).2
  refine ⟨hfetch, hrlt, ?_, ?_⟩
  · intro heq
    have hidsmem : r.id ∈ channelIds dmSt scr.channelName :=
      mem_channelIds.mpr ⟨d, hd, hdc, heq⟩
    have hle := (maxOfIds_spec
      (show maxOfIds (channelIds dmSt scr.channelName) = some w from hw)).2
      _ hidsmem
    omega
  · have hrun : (scrapeRun scr now limit).1.dm
        = ((scrapeFetched scr limit).foldl
            (scrapeStep scr.channelName now) (scr.dm, [])).1 := rfl
    rw [hrun, hdm]
    obtain ⟨st2, ext, h1, h2, h3⟩ :=
      scrapeLoop_docs scr.channelName now (scrapeFetched scr limit) dmSt []
    refine ⟨st2, ext, h1, h2, ?_⟩
    intro e he
    obtain ⟨r2, hr2, hid2⟩ := h3 e he
    rw [hfetch] at hr2
    have hlt := (List.mem_filter.mp hr2).2
    exact ⟨r2.id, hid2, by simpa using hlt⟩

/-- C4 counterexample: a resume point of 0 is present, yet the fetch does
not restrict itself to ids strictly greater than it (the fetched item has
id 0) and does not ignore the limit argument (limit 0 and limit 1 fetch
different lists): the code branches on Python truthiness, not on presence. -/
theorem claim4_cex :
    resumePoint scrZero = some 0 ∧
    scrapeFetched scrZero (some 1) = [rawZero] ∧
    rawZero.id = 0 ∧
    scrapeFetched scrZero (some 0) ≠ scrapeFetched scrZero (some 1) := by
  exact ⟨by decide, by decide, by decide, by decide⟩

/-- C4 amended: when a nonzero resume point is present the fetch yields
exactly the items with native id strictly greater than it and is independent
of the limit argument; when the resume point is absent or zero, at most
`limit` items are fetched. -/
theorem claim4_amended (scr : Scraper) (c : Client) (n l : Nat)
    (l1 l2 : Option Nat) (hc : scr.client = some c) :
    (resumePoint scr = some n → n ≠ 0 →
      scrapeFetched scr l1 = c.items.filter (fun x => decide (n < x.id)) ∧
      scrapeFetched scr l1 = scrapeFetched scr l2) ∧
    ((resumePoint scr = none ∨ resumePoint scr = some 0) →
      (scrapeFetched scr (some l)).length ≤ l) := by
  constructor
  · intro hres hn
    constructor
    · simp [scrapeFetched, hc, hres, hn, iter_messages]
    · simp [scrapeFetched, hc, hres, hn]
  · intro hres
    rcases hres with hres | hres
    · simp only [scrapeFetched, hc, hres, iter_messages]
      simp [List.length_take]
    · simp only [scrapeFetched, hc, hres, ne_eq, not_true_eq_false,
        if_false, iter_messages]
      simp [List.length_take]

/-! ### Factory lemmas -/

theorem get_scraper_cached {st : FactoryState} {T : String}
    {x : ScraperObj} {ty : ScraperType}
    (hreg : lookupAL T st.scrapers = some ty)
    (hinst : lookupAL T st.instances = some x) :
    get_scraper st T emptyKw = some (st, x) := by
  unfold get_scraper
  rw [hreg, hinst]
  rfl

theorem get_scraper_construct {st : FactoryState} {T : String}
    {ty : ScraperType} {kw : KwArgs}
    (hreg : lookupAL T st.scrapers = some ty) (hkw : kw.truthy = true) :
    get_scraper st T kw = some
      ({ st with
          instances := insertAL T
            { cls := ty, channelId := kw.channel_id.getD T,
              channelName := kw.channel_name.getD T,
              config := kw.others, uid := st.counter } st.instances,
          counter := st.counter + 1 },
        { cls := ty, channelId := kw.channel_id.getD T,
          channelName := kw.channel_name.getD T,
          config := kw.others, uid := st.counter }) := by
  unfold get_scraper
  rw [hreg]
  cases hinst : lookupAL T st.instances with
  | some cached => simp [hkw]
  | none => rfl

theorem get_scraper_emptyKw {st st1 : FactoryState} {T : String}
    {i1 : ScraperObj}
    (h : get_scraper st T emptyKw = some (st1, i1)) :
    st1.scrapers = st.scrapers ∧ lookupAL T st1.instances = some i1 := by
  unfold get_scraper at h
  cases hreg : lookupAL T st.scrapers with
  | none => rw [hreg] at h; simp at h
  | some ty =>
    rw [hreg] at h
    cases hinst : lookupAL T st.instances with
    | some cached =>
      rw [hinst] at h
      have htr : emptyKw.truthy = false := rfl
      rw [htr] at h
      simp at h
      obtain ⟨hst, hi⟩ := h
      rw [← hst, ← hi]
      exact ⟨rfl, hinst⟩
    | none =>
      rw [hinst] at h
      simp at h
      obtain ⟨hst, hi⟩ := h
      rw [← hst, ← hi]
      exact ⟨rfl, lookupAL_insertAL_self T _ st.instances⟩

/-! ### Claims about the registry -/

/-- C5: resolving a scraper type that was never registered raises KeyError
(modelled as `none`); two `get_scraper` calls for the same key with no
options return the very same cached object, the second call changing
nothing; supplying options constructs a fresh object (its uid is the current
construction counter) and caches it under that same key, replacing the
previous entry. -/
theorem claim5_registry_resolution (st st1 st2 st3 : FactoryState)
    (T U : String) (ty : ScraperType) (i1 i2 i3 : ScraperObj)
    (kw kwU : KwArgs)
    (hreg : lookupAL T st.scrapers = some ty)
    (hunreg : lookupAL U st.scrapers = none)
    (h1 : get_scraper st T emptyKw = some (st1, i1))
    (h2 : get_scraper st1 T emptyKw = some (st2, i2))
    (hkw : kw.truthy = true)
    (h3 : get_scraper st1 T kw = some (st3, i3)) :
    get_scraper st U kwU = none ∧
    i2 = i1 ∧ st2 = st1 ∧
    i3.uid = st1.counter ∧ st3.counter = st1.counter + 1 ∧
    lookupAL T st3.instances = some i3 := by
  obtain ⟨hA, hB⟩ := get_scraper_emptyKw h1
  have hreg1 : lookupAL T st1.scrapers = some ty := by rw [hA]; exact hreg
  have h2e := get_scraper_cached hreg1 hB
  rw [h2e] at h2
  simp only [Option.some.injEq, Prod.mk.injEq] at h2
  have h3e := get_scraper_construct hreg1 hkw
  rw [h3e] at h3
  simp only [Option.some.injEq, Prod.mk.injEq] at h3
  obtain ⟨hst3, hi3⟩ := h3
  refine ⟨by simp [get_scraper, hunreg], h2.2.symm, h2.1.symm, ?_, ?_, ?_⟩
  · rw [← hi3]
  · rw [← hst3]
  · rw [← hst3, ← hi3]
    exact lookupAL_insertAL_self T _ st1.instances

/-- C7: `remove_scraper` deletes the cached instance under the given name
and, when present, the type registration under the same name, returning
whether a registration was removed; entries under any other key are left
unchanged in both dicts. -/
theorem claim7_remove_scraper (st : FactoryState) (n k : String)
    (hk : k ≠ n) :
    lookupAL n (remove_scraper st n).1.instances = none ∧
    lookupAL n (remove_scraper st n).1.scrapers = none ∧
    (remove_scraper st n).2 = (lookupAL n st.scrapers).isSome ∧
    lookupAL k (remove_scraper st n).1.instances = lookupAL k st.instances ∧
    lookupAL k (remove_scraper st n).1.scrapers = lookupAL k st.scrapers := by
  by_cases hi : (lookupAL n st.instances).isSome
  · by_cases hs : (lookupAL n st.scrapers).isSome
    · have hval : remove_scraper st n
          = ({ st with instances := eraseAL n st.instances,
                       scrapers := eraseAL n st.scrapers }, true) := by
        simp [remove_scraper, hi, hs]
      rw [hval]
      refine ⟨lookupAL_eraseAL_self n _, lookupAL_eraseAL_self n _, ?_,
        lookupAL_eraseAL_ne _ hk, lookupAL_eraseAL_ne _ hk⟩
      simp [hs]
    · have hsn : lookupAL n st.scrapers = none :=
        Option.not_isSome_iff_eq_none.mp hs
      have hval : remove_scraper st n
          = ({ st with instances := eraseAL n st.instances }, false) := by
        simp [remove_scraper, hi, hs]
      rw [hval]
      refine ⟨lookupAL_eraseAL_self n _, hsn, ?_,
        lookupAL_eraseAL_ne _ hk, rfl⟩
      simp [hsn]
  · have hin : lookupAL n st.instances = none :=
      Option.not_isSome_iff_eq_none.mp hi
    by_cases hs : (lookupAL n st.scrapers).isSome
    · have hval : remove_scraper st n
          = ({ st with scrapers := eraseAL n st.scrapers }, true) := by
        simp [remove_scraper, hi, hs]
      rw [hval]
      refine ⟨hin, lookupAL_eraseAL_self n _, ?_, rfl,
        lookupAL_eraseAL_ne _ hk⟩
      simp [hs]
    · have hsn : lookupAL n st.scrapers = none :=
        Option.not_isSome_iff_eq_none.mp hs
      have hval : remove_scraper st n = (st, false) := by
        simp [remove_scraper, hi, hs]
      rw [hval]
      exact ⟨hin, hsn, by simp [hsn], rfl, rfl⟩

/-- C9: the instance cache is keyed by scraper type, not by channel name:
resolving the same registered type first for channel A (with options) and
then for channel B replaces the single cached entry, so a later plain
`get_scraper` call returns the object configured for B and never the one
configured for A, and the cache holds exactly one entry for the type. -/
theorem claim9_cache_keyed_by_type (st st1 st2 st3 : FactoryState)
    (T A B : String) (ty : ScraperType) (i1 i2 i3 : ScraperObj)
    (hreg : lookupAL T st.scrapers = some ty)
    (hnd : (st.instances.map Prod.fst).Nodup)
    (hAB : A ≠ B)
    (h1 : get_scraper st T (kwName A) = some (st1, i1))
    (h2 : get_scraper st1 T (kwName B) = some (st2, i2))
    (h3 : get_scraper st2 T emptyKw = some (st3, i3)) :
    i1.channelName = A ∧ i2.channelName = B ∧ i3 = i2 ∧ i3 ≠ i1 ∧
    (st3.instances.filter (fun p => decide (p.1 = T))).length = 1 := by
  have htrA : (kwName A).truthy = true := rfl
  have htrB : (kwName B).truthy = true := rfl
  have h1e := get_scraper_construct hreg htrA
  rw [h1e] at h1
  simp only [Option.some.injEq, Prod.mk.injEq] at h1
  obtain ⟨hst1, hi1⟩ := h1
  have hreg1 : lookupAL T st1.scrapers = some ty := by
    rw [← hst1]; exact hreg
  have h2e := get_scraper_construct hreg1 htrB
  rw [h2e] at h2
  simp only [Option.some.injEq, Prod.mk.injEq] at h2
  obtain ⟨hst2, hi2⟩ := h2
  have hreg2 : lookupAL T st2.scrapers = some ty := by
    rw [← hst2]; exact hreg1
  have hcache : lookupAL T st2.instances = some i2 := by
    rw [← hst2, ← hi2]
    exact lookupAL_insertAL_self T _ st1.instances
  have h3e := get_scraper_cached hreg2 hcache
  rw [h3e] at h3
  simp only [Option.some.injEq, Prod.mk.injEq] at h3
  obtain ⟨hst3, hi3⟩ := h3
  have hch1 : i1.channelName = A := by rw [← hi1]; rfl
  have hch2 : i2.channelName = B := by rw [← hi2]; rfl
  refine ⟨hch1, hch2, hi3.symm, ?_, ?_⟩
  · intro heq
    rw [heq] at hi3
    have : A = B := by rw [← hch1, ← hch2, hi3]
    exact hAB this
  · rw [← hst3, ← hst2, ← hst1]
    rw [filter_insertAL T _ (keys_nodup_insertAL T _ hnd)]
    rfl

/-! ### Concrete states instantiating the claim theorems -/

/-- A connected, empty store accepting every insert. -/
def stW : MongoState :=
  { connected := true, docs := [], insertFails := fun _ => false }

/-- A store on which `connect` has not succeeded. -/
def stNC : MongoState :=
  { connected := false, docs := [], insertFails := fun _ => false }

/-- A record with id 7 for channel chan. -/
def recW : Message :=
  { id := some 7, date := 3, text := "hello", channel := some "chan",
    hasMedia := false, insertedAt := none, processedAt := none }

/-- The same record shape without an id. -/
def recNoId : Message :=
  { id := none, date := 3, text := "hello", channel := some "chan",
    hasMedia := false, insertedAt := none, processedAt := none }

/-- A stored document with id 10 for channel C. -/
def docTen : Message :=
  { id := some 10, date := 0, text := "old", channel := some "C",
    hasMedia := false, insertedAt := some 0, processedAt := some 0 }

/-- A store holding exactly that document. -/
def dmTen : MongoState :=
  { connected := true, docs := [docTen], insertFails := fun _ => false }

/-- A newer source item (id 12) and an older one (id 9). -/
def rawTwelve : RawMsg := { id := 12, date := 1, text := "new", media := false }

/-- The older source item. -/
def rawNine : RawMsg := { id := 9, date := 0, text := "older", media := false }

/-- The source exposing both items. -/
def clientInc : Client := { items := [rawTwelve, rawNine] }

/-- The scraper re-invoked for channel C with watermark 10. -/
def scrInc : Scraper :=
  { channelId := "c", channelName := "C", keywords := [], categories := [],
    client := some clientInc, dm := some dmTen }

/-- The one registered scraper class. -/
def tyW : ScraperType := { name := "basic_text_channel" }

/-- A factory state with one registration and an empty cache. -/
def fsW : FactoryState :=
  { scrapers := [("basic_text_channel", tyW)], instances := [], counter := 0 }

/-- The object constructed by a plain `get_scraper` call on `fsW`. -/
def i1W : ScraperObj :=
  { cls := tyW, channelId := "basic_text_channel",
    channelName := "basic_text_channel", config := [], uid := 0 }

/-- The factory state after that call. -/
def fs1W : FactoryState :=
  { scrapers := [("basic_text_channel", tyW)],
    instances := [("basic_text_channel", i1W)], counter := 1 }

/-- The object constructed when options naming channel B are supplied. -/
def i3W : ScraperObj :=
  { cls := tyW, channelId := "basic_text_channel", channelName := "B",
    config := [], uid := 1 }

/-- The factory state after that replacement. -/
def fs3W : FactoryState :=
  { scrapers := [("basic_text_channel", tyW)],
    instances := [("basic_text_channel", i3W)], counter := 2 }

/-- The object constructed for channel A on `fsW`. -/
def iAW : ScraperObj :=
  { cls := tyW, channelId := "basic_text_channel", channelName := "A",
    config := [], uid := 0 }

/-- The factory state caching the channel A object. -/
def fsAW : FactoryState :=
  { scrapers := [("basic_text_channel", tyW)],
    instances := [("basic_text_channel", iAW)], counter := 1 }

/-- The object constructed for channel B on `fsAW`. -/
def iBW : ScraperObj :=
  { cls := tyW, channelId := "basic_text_channel", channelName := "B",
    config := [], uid := 1 }

/-- The factory state after the channel B replacement. -/
def fsBW : FactoryState :=
  { scrapers := [("basic_text_channel", tyW)],
    instances := [("basic_text_channel", iBW)], counter := 2 }

/-! ### Witnesses -/

/-- C1 witness: the amended resume theorem evaluated on a concrete
watermark-10 store against a source exposing ids 12 and 9. -/
theorem claim1_witness :
    scrapeFetched scrInc (some 1)
        = clientInc.items.filter (fun x => decide (10 < x.id)) ∧
    10 < rawTwelve.id ∧
    docTen.id ≠ some rawTwelve.id ∧
    ∃ dmSt2 ext, (scrapeRun scrInc 7 (some 1)).1.dm = some dmSt2 ∧
      dmSt2.docs = dmTen.docs ++ ext ∧
      ∀ e ∈ ext, ∃ n2, e.id = some n2 ∧ 10 < n2 :=
  claim1_amended scrInc clientInc dmTen 10 7 (some 1) rawTwelve docTen
    rfl rfl (by decide) (by decide) (by decide) (by decide) rfl

/-- C2 witness: the idempotent-upsert theorem evaluated on the empty
connected store and the id-7 record. -/
theorem claim2_witness :
    (save_message stW 4 recW).2 = SaveOutcome.Inserted ∧
    (save_message stW 4 recW).1.docs = stW.docs ++ [setInsertedAt 4 recW] ∧
    save_message (save_message stW 4 recW).1 4 recW
      = ((save_message stW 4 recW).1, SaveOutcome.AlreadyExists) ∧
    (save_message stW 4 recW).1.docs.countP (dupQuery 7 recW) = 1 :=
  claim2_idempotent_upsert stW 4 recW 7 rfl rfl (by decide) rfl

/-- C3 witness: the amended watermark theorem evaluated on the empty
connected store, channel chan and the id-7 record. -/
theorem claim3_witness :
    (∃ w, get_latest_message_id (save_message stW 4 recW).1 "chan" = some w ∧
      7 ≤ w) ∧
    (∀ w, get_latest_message_id stW "chan" = some w →
      (∃ d ∈ stW.docs, d.channel = some "chan" ∧ d.id = some w) ∧
      ∀ d ∈ stW.docs, d.channel = some "chan" →
        ∀ n2, d.id = some n2 → n2 ≤ w) ∧
    (get_latest_message_id stW "chan" = none →
      ∀ d ∈ stW.docs, d.channel = some "chan" → d.id = none) :=
  claim3_amended stW 4 7 recW "chan" (by decide) rfl rfl (by decide)

/-- C4 witness: the amended fetch-branching theorem evaluated on the
watermark-10 scraper. -/
theorem claim4_witness :
    (resumePoint scrInc = some 10 → 10 ≠ 0 →
      scrapeFetched scrInc (some 1)
          = clientInc.items.filter (fun x => decide (10 < x.id)) ∧
      scrapeFetched scrInc (some 1) = scrapeFetched scrInc none) ∧
    ((resumePoint scrInc = none ∨ resumePoint scrInc = some 0) →
      (scrapeFetched scrInc (some 5)).length ≤ 5) :=
  claim4_amended scrInc clientInc 10 5 (some 1) none rfl

/-- C5 witness: the registry-resolution theorem evaluated on the concrete
one-registration factory. -/
theorem claim5_witness :
    get_scraper fsW "unknown" emptyKw = none ∧
    i1W = i1W ∧ fs1W = fs1W ∧
    i3W.uid = fs1W.counter ∧ fs3W.counter = fs1W.counter + 1 ∧
    lookupAL "basic_text_channel" fs3W.instances = some i3W :=
  claim5_registry_resolution fsW fs1W fs1W fs3W "basic_text_channel"
    "unknown" tyW i1W i1W i3W (kwName "B") emptyKw
    (by decide) (by decide) (by decide) (by decide) rfl (by decide)

/-- C6 witness: the amended batch-persistence theorem evaluated on the empty
connected store and the singleton batch. -/
theorem claim6_witness :
    (∃ ext, (save_messages stW 4 [recW]).1.docs = stW.docs ++ ext) ∧
    ∃ d ∈ (save_messages stW 4 [recW]).1.docs, d.id = some 7 :=
  claim6_amended stW 4 [recW] recW 7 rfl (by decide) rfl rfl

/-- C7 witness: the removal theorem evaluated on the concrete factory for
the registered name and a distinct other key. -/
theorem claim7_witness :
    lookupAL "basic_text_channel"
        (remove_scraper fsW "basic_text_channel").1.instances = none ∧
    lookupAL "basic_text_channel"
        (remove_scraper fsW "basic_text_channel").1.scrapers = none ∧
    (remove_scraper fsW "basic_text_channel").2
        = (lookupAL "basic_text_channel" fsW.scrapers).isSome ∧
    lookupAL "other" (remove_scraper fsW "basic_text_channel").1.instances
        = lookupAL "other" fsW.instances ∧
    lookupAL "other" (remove_scraper fsW "basic_text_channel").1.scrapers
        = lookupAL "other" fsW.scrapers :=
  claim7_remove_scraper fsW "basic_text_channel" "other" (by decide)

/-- C8 witness: the store-unavailable theorem evaluated on the
not-connected store. -/
theorem claim8_witness :
    save_message stNC 0 recW = (stNC, SaveOutcome.Failed) ∧
    SaveOutcome.Failed.toBool = false ∧
    SaveOutcome.Inserted.toBool = true ∧
    SaveOutcome.AlreadyExists.toBool = true ∧
    save_messages stNC 0 [recW] = (stNC, 0) :=
  claim8_store_unavailable stNC 0 recW [recW] rfl

/-- C9 witness: the cache-keyed-by-type theorem evaluated on the concrete
factory, channels A and B. -/
theorem claim9_witness :
    iAW.channelName = "A" ∧ iBW.channelName = "B" ∧ iBW = iBW ∧ iBW ≠ iAW ∧
    (fsBW.instances.filter
        (fun p => decide (p.1 = "basic_text_channel"))).length = 1 :=
  claim9_cache_keyed_by_type fsW fsAW fsBW fsBW "basic_text_channel" "A" "B"
    tyW iAW iBW iBW (by decide) (by decide) (by decide)
    (by decide) (by decide) (by decide)

/-- C10 witness: the unconditional-insert theorem evaluated on the empty
connected store and the id-less record. -/
theorem claim10_witness :
    save_message stW 4 recNoId
      = ({ stW with docs := stW.docs ++ [setInsertedAt 4 recNoId] },
          SaveOutcome.Inserted) ∧
    save_message (save_message stW 4 recNoId).1 4 recNoId
      = ({ stW with
            docs := stW.docs
              ++ [setInsertedAt 4 recNoId, setInsertedAt 4 recNoId] },
          SaveOutcome.Inserted) :=
  claim10_no_id_unconditional_insert stW 4 recNoId rfl rfl rfl
